import Mathlib

/-!
Verification development for the VASIM vertical autoscaling simulator
(microsoft/vasim).  The definitions below are a shallow embedding of the
Python sources of the `vasim` package (`src/vasim/...`): timestamps are
modelled as integers (seconds since an arbitrary epoch; a pandas
`Timedelta(minutes=m)` is `m * 60` seconds), CPU quantities as rationals,
and Python float values that may be NaN as the inductive `FVal` (IEEE
comparison semantics for NaN are total and exactly representable; no
rounding behaviour is modelled or needed).  Fallible Python code is
embedded with `Except PyErr`.
-/

set_option maxRecDepth 8000

set_option allowUnsafeReducibility true

attribute [local semireducible] Rat.add Rat.mul Rat.sub Rat.inv

namespace VASim

/-- Python exception kinds that the embedded code paths can raise. -/
inductive PyErr where
  | notImplementedError
  | attributeError
  | indexError
  | typeError
  | valueError
deriving DecidableEq, Repr

/-- A Python float that is either NaN or an exact (rational) value.
All floats appearing in the modelled code are produced by arithmetic on
CSV inputs; we model them as rationals, keeping NaN as a separate
constructor because `pandas.Series.max()` of an empty series is NaN and
NaN propagates through the recommender arithmetic. -/
inductive FVal where
  | nan
  | val (q : Rat)
deriving DecidableEq, Repr

/-- Python `x != y` on floats: NaN compares unequal to everything,
including itself. -/
def FVal.pyNe : FVal → FVal → Bool
  | .nan, _ => true
  | _, .nan => true
  | .val a, .val b => a ≠ b

/-- Python `x < y` on floats: any comparison involving NaN is `False`. -/
def FVal.pyLt : FVal → FVal → Bool
  | .nan, _ => false
  | _, .nan => false
  | .val a, .val b => a < b

/-- Python `x > y` on floats: any comparison involving NaN is `False`. -/
def FVal.pyGt : FVal → FVal → Bool
  | .nan, _ => false
  | _, .nan => false
  | .val a, .val b => b < a

/-- `new_limit != curr_cpu_limit` where the current limit may be Python
`None` (before the first `set_cpu_limit`); `x != None` is `True` for any
float `x`. -/
def pyNeOpt (n : FVal) (o : Option FVal) : Bool :=
  match o with
  | none => true
  | some c => FVal.pyNe n c

/-- One observation row of the in-memory trace (`time`, `cpu`), from the
`TIMESTAMP` / `CPU_USAGE_ACTUAL` CSV columns. -/
structure Obs where
  time : Int
  cpu : Rat
deriving DecidableEq, Repr

/- ----------------------------------------------------------------- -/
/- ClusterStateConfig (ClusterStateConfig.py, ConfigStateConstants.py) -/
/- ----------------------------------------------------------------- -/

/-- A JSON scalar as stored in a configuration section. -/
inductive JVal where
  | jint (n : Int)
  | jstr (s : String)
  | jbool (b : Bool)
  | jnull
deriving DecidableEq, Repr

/-- A configuration section: a Python `dict` in insertion order. -/
abbrev KVSection := List (String × JVal)

/-- First binding of `k`, like Python `d[k]` / `d.get(k)`. -/
def lookupKey : KVSection → String → Option JVal
  | [], _ => none
  | (k', v) :: rest, k => if k' = k then some v else lookupKey rest k

/-- Python `d[k] = v`: replace the existing binding in place, else append
(dicts preserve insertion order). -/
def setKey : KVSection → String → JVal → KVSection
  | [], k, v => [(k, v)]
  | (k', v') :: rest, k, v =>
      if k' = k then (k, v) :: rest else (k', v') :: setKey rest k v

/-- Python `k in d`. -/
def hasKey (s : KVSection) (k : String) : Bool :=
  (lookupKey s k).isSome

/-- Python truthiness of a JSON scalar (`if d["enabled"]:`). -/
def truthy : JVal → Bool
  | .jbool b => b
  | .jint n => n ≠ 0
  | .jstr s => s ≠ ""
  | .jnull => false

/-- The three sections of a `ClusterStateConfig`. -/
structure Config where
  general_config : KVSection
  algo_specific_config : KVSection
  prediction_config : KVSection
deriving DecidableEq, Repr

/-- Defaults from `ConfigStateConstants.py` for the general section. -/
def generalDefault : String → Int
  | "window" => 60
  | "lag" => 15
  | "max_cpu_limit" => 20
  | "min_cpu_limit" => 1
  | "recovery_time" => 15
  | _ => 0

/-- `general_required_keys` in `validate_config`. -/
def generalRequiredKeys : List String :=
  ["window", "lag", "max_cpu_limit", "min_cpu_limit", "recovery_time"]

/-- Defaults for the prediction section (`self.defaults["prediction_config"]`). -/
def predictionDefault : String → JVal
  | "enabled" => .jbool false
  | "waiting_before_predict" => .jint 1440
  | "frequency_minutes" => .jint 1
  | "forecasting_models" => .jstr "naive"
  | "minutes_to_predict" => .jint 10
  | "total_predictive_window" => .jint 60
  | _ => .jnull

/-- `prediction_required_keys` in `validate_config`. -/
def predictionRequiredKeys : List String :=
  ["waiting_before_predict", "frequency_minutes", "forecasting_models",
   "minutes_to_predict", "total_predictive_window"]

/-- First loop of `validate_config`: fill each missing required general
key with its default. -/
def fillMissingGeneral (g : KVSection) : KVSection :=
  generalRequiredKeys.foldl
    (fun acc k => if hasKey acc k then acc else setKey acc k (.jint (generalDefault k))) g

/-- Prediction part of `validate_config`: when `"enabled" in
prediction_config and prediction_config["enabled"]`, fill the missing
required prediction keys; otherwise force `enabled` to `False`. -/
def validatePrediction (p : KVSection) : KVSection :=
  if (match lookupKey p "enabled" with | some v => truthy v | none => false) then
    predictionRequiredKeys.foldl
      (fun acc k => if hasKey acc k then acc else setKey acc k (predictionDefault k)) p
  else
    setKey p "enabled" (.jbool false)

/-- Python `isinstance(value, int) and value > 0`; `bool` is a subclass
of `int` in Python, with `True == 1` and `False == 0`. -/
def isPosInt : JVal → Bool
  | .jint n => 0 < n
  | .jbool b => b
  | _ => false

/-- The integer a value denotes under Python int/bool arithmetic, when
it has one. -/
def asPyInt : JVal → Option Int
  | .jint n => some n
  | .jbool b => some (if b then 1 else 0)
  | _ => none

/-- `_check_positive_integer(key, value)`: soft-fail, substituting the
general default when `value` is not a positive integer. -/
def checkPositiveInteger (g : KVSection) (k : String) : KVSection :=
  if isPosInt ((lookupKey g k).getD .jnull) then g
  else setKey g k (.jint (generalDefault k))

/-- Final sanity check of `validate_config`: when
`min_cpu_limit > max_cpu_limit`, reset both to the defaults.  After the
positive-integer checks both values are Python ints (or bools); a
non-numeric value here would raise in Python but is unreachable, and we
leave the section unchanged in that dead branch. -/
def enforceMinMax (g : KVSection) : KVSection :=
  match asPyInt ((lookupKey g "min_cpu_limit").getD .jnull),
        asPyInt ((lookupKey g "max_cpu_limit").getD .jnull) with
  | some mn, some mx =>
      if mx < mn then
        setKey (setKey g "min_cpu_limit" (.jint (generalDefault "min_cpu_limit")))
          "max_cpu_limit" (.jint (generalDefault "max_cpu_limit"))
      else g
  | _, _ => g

/-- `ClusterStateConfig.validate_config`, in source order: fill missing
general keys, handle the prediction section, run the four
positive-integer checks (note: `recovery_time` is not checked), then
enforce `min_cpu_limit ≤ max_cpu_limit`. -/
def validate_config (c : Config) : Config :=
  let g := fillMissingGeneral c.general_config
  let p := validatePrediction c.prediction_config
  let g := checkPositiveInteger g "window"
  let g := checkPositiveInteger g "lag"
  let g := checkPositiveInteger g "max_cpu_limit"
  let g := checkPositiveInteger g "min_cpu_limit"
  let g := enforceMinMax g
  { general_config := g, algo_specific_config := c.algo_specific_config,
    prediction_config := p }

/-- `ClusterStateConfig.__init__` via `_load_from_dict` (or
`_load_from_json`): take the three sections as given and run
`validate_config`. -/
def ClusterStateConfig.init (d : Config) : Config :=
  validate_config d

/-- `ClusterStateConfig.to_json`: serialize exactly the three stored
sections. -/
def to_json (c : Config) : Config :=
  { general_config := c.general_config,
    algo_specific_config := c.algo_specific_config,
    prediction_config := c.prediction_config }

/-- `to_file(load_from_file(p))`: load (which validates in the
constructor) and write back. -/
def roundTrip (d : Config) : Config :=
  to_json (ClusterStateConfig.init d)

/- ----------------------------------------------------------------- -/
/- Provider factory (SimulatedClusterStateProviderFactory.py,         -/
/- InMemorySimulator._create_cluster_state_provider)                  -/
/- ----------------------------------------------------------------- -/

/-- The two provider classes the factory can instantiate. -/
inductive ProviderKind where
  | predictive
  | nonPredictive
deriving DecidableEq, Repr

/-- `SimulatedClusterStateProviderFactory.create_provider(predictive)`:
`if predictive: SimulatedInMemoryPredictiveClusterStateProvider(...)
else: SimulatedInMemoryClusterStateProvider(...)`. -/
def create_provider (predictive : Bool) : ProviderKind :=
  if predictive then .predictive else .nonPredictive

/-- Python truthiness of a `dict`: non-empty. -/
def truthyDict (s : KVSection) : Bool :=
  !s.isEmpty

/-- `InMemoryRunnerSimulator._create_cluster_state_provider`: the call is
`create_provider(predictive=config.prediction_config)`, passing the whole
prediction mapping, whose truthiness is its non-emptiness. -/
def simulatorCreateProvider (c : Config) : ProviderKind :=
  create_provider (truthyDict c.prediction_config)

/- ----------------------------------------------------------------- -/
/- Simulated cluster state (SimulatedBaseClusterStateProvider.py,     -/
/- SimulatedInMemoryPredictiveClusterStateProvider.py,                -/
/- FileClusterStateProvider.py, SimulatedInfraScaler.py,              -/
/- InMemorySimulator.py)                                              -/
/- ----------------------------------------------------------------- -/

/-- The configuration scalars the providers, scaler and simulator read
(post-validation values of `general_config` and `prediction_config`).
`window`, `lag`, `recovery_time` and `waiting_before_predict` are in
minutes. -/
structure GeneralCfg where
  window : Int
  lag : Int
  max_cpu_limit : Int
  min_cpu_limit : Int
  recovery_time : Int
  waiting_before_predict : Int
  frequency_minutes : Int
  total_predictive_window : Int
deriving DecidableEq, Repr

/-- One row of `decisions.csv` (`LATEST_TIME,CURR_LIMIT,NEW_LIMIT`); the
limits may be Python `None` (printed as such). -/
structure DecisionRow where
  latest_time : Int
  curr_limit : Option FVal
  new_limit : Option FVal
deriving DecidableEq, Repr

/-- The mutable state of one simulation: the provider
(`SimulatedBaseClusterStateProvider` fields incl. the in-memory trace
`recorded_data` and the `_prediction_activated` flag of
`PredictiveFileClusterStateProvider`), the scaler's
`last_scaling_time`, and the decision log the simulator appends to. -/
structure SimState where
  trace : List Obs
  start_time : Int
  end_time : Int
  current_time : Int
  curr_cpu_limit : Option FVal
  provider_last_scaling_time : Int
  prediction_activated_flag : Bool
  scaler_last_scaling_time : Option Int
  decision_log : List DecisionRow
deriving DecidableEq, Repr

/-- `SimulatedInMemoryPredictiveClusterStateProvider.read_metrics_data`:
`None` when `current_time > end_time`, else the rows of the trace with
`current_time − window ≤ time ≤ current_time` (`.loc` slicing on a sorted
time index is inclusive at both ends).  The trace itself is not
modified. -/
def read_metrics_data (cfg : GeneralCfg) (s : SimState) : Option (List Obs) :=
  if s.end_time < s.current_time then none
  else some (s.trace.filter
    (fun o => s.current_time - cfg.window * 60 ≤ o.time ∧ o.time ≤ s.current_time))

/-- `SimulatedInMemoryPredictiveClusterStateProvider._get_all_performance_data`:
rows from `start_time` to `current_time`, or `None` past the end. -/
def getAllPerformanceData (s : SimState) : Option (List Obs) :=
  if s.end_time < s.current_time then none
  else some (s.trace.filter (fun o => s.start_time ≤ o.time ∧ o.time ≤ s.current_time))

/-- `ClusterStateProvider.drop_duplicates`: pandas keeps the first
occurrence of each duplicated row. -/
def dropDuplicatesAux : List Obs → List Obs → List Obs
  | _, [] => []
  | seen, o :: rest =>
      if o ∈ seen then dropDuplicatesAux seen rest
      else o :: dropDuplicatesAux (o :: seen) rest

/-- `ClusterStateProvider.drop_duplicates` on the whole frame. -/
def drop_duplicates (xs : List Obs) : List Obs :=
  dropDuplicatesAux [] xs

/-- Insert one observation into a list sorted by time (ties keep input
order; pandas' default sort leaves tie order unspecified). -/
def insertByTime (o : Obs) : List Obs → List Obs
  | [] => [o]
  | x :: xs => if o.time < x.time then o :: x :: xs else x :: insertByTime o xs

/-- `ClusterStateProvider.sort_data`: sort the frame by the `time`
column. -/
def sort_data (xs : List Obs) : List Obs :=
  xs.foldl (fun acc o => insertByTime o acc) []

/-- `SimulatedBaseClusterStateProvider.get_last_decision_time` (the
override used by both simulated providers): `current_time − lag`. -/
def get_last_decision_time (cfg : GeneralCfg) (s : SimState) : Int :=
  s.current_time - cfg.lag * 60

/-- `FileClusterStateProvider.truncate_data`: `end_time` is the last
row's time (`.iloc[-1]` raises on an empty frame); with more than 2
observations and a last decision time past `end_time` the method returns
`(None, None)`; otherwise it keeps the rows within
`[end_time − window, end_time]`. -/
def truncate_data (cfg : GeneralCfg) (frame : List Obs) (lastDecisionTime : Int) :
    Except PyErr (Option (List Obs × Int)) :=
  match frame.getLast? with
  | none => .error .indexError
  | some last =>
      let endT := last.time
      if 2 < frame.length ∧ endT < lastDecisionTime then .ok none
      else .ok (some
        (frame.filter (fun o => endT - cfg.window * 60 ≤ o.time ∧ o.time ≤ endT), endT))

/-- The frame `FileClusterStateProvider.get_next_recorded_data` has in
hand right after `truncate_data`: read (the simulated in-memory
override), drop duplicates (`drop_duplicates(None)` would raise
`AttributeError`), sort, truncate at the last decision time. -/
def truncatedWindow (cfg : GeneralCfg) (s : SimState) :
    Except PyErr (Option (List Obs × Int)) :=
  match read_metrics_data cfg s with
  | none => .error .attributeError
  | some rd => truncate_data cfg (sort_data (drop_duplicates rd)) (get_last_decision_time cfg s)

/-- `FileClusterStateProvider.get_next_recorded_data` as executed by the
simulated providers (with `read_metrics_data`, `get_last_decision_time`
and `get_current_cpu_limit` resolved to the simulated overrides): after
truncation, `None` for an empty or one-row frame; with more than 2 rows,
`None` when the current CPU limit is `None`, else the rows whose `cpu`
exceeds `general_config["max_cpu_limit"]` are dropped from the returned
window (the stored trace is untouched). -/
def fileGetNextRecordedData (cfg : GeneralCfg) (s : SimState) :
    Except PyErr (Option (List Obs × Int)) :=
  match truncatedWindow cfg s with
  | .error e => .error e
  | .ok none => .ok none
  | .ok (some (t, endT)) =>
      if t.isEmpty then .ok none
      else if t.length < 2 then .ok none
      else if 2 < t.length then
        match s.curr_cpu_limit with
        | none => .ok none
        | some _ => .ok (some (t.filter (fun o => o.cpu ≤ (cfg.max_cpu_limit : Rat)), endT))
      else .ok (some (t, endT))

/-- `DataProcessor.get_workload_duration` in seconds: difference between
the latest and earliest `time` of the frame (`none` for an empty frame,
where pandas yields NaN and the activation comparison is `False`). -/
def workloadDurationSec (xs : List Obs) : Option Int :=
  match xs.map Obs.time with
  | [] => none
  | t :: ts => some (ts.foldl max t - ts.foldl min t)

/-- `PredictiveFileClusterStateProvider.prediction_activated`: once
`True`, stays `True`; otherwise flips on when the collected history
spans strictly more than `waiting_before_predict` minutes. -/
def predictionActivatedStep (cfg : GeneralCfg) (flag : Bool) (data : Option (List Obs)) : Bool :=
  if flag then true
  else
    match data with
    | none => flag
    | some d =>
        match workloadDurationSec d with
        | none => false
        | some dur => decide (cfg.waiting_before_predict * 60 < dur)

/-- pandas `DataFrame.tail(n)`: the last `n` rows. -/
def tailRows (n : Nat) (xs : List Obs) : List Obs :=
  xs.drop (xs.length - n)

/-- `int(self.predictive_window / self.frequency_minutes)` for the
`tail` call of the predictive provider. -/
def predictiveTailCount (cfg : GeneralCfg) : Nat :=
  (cfg.total_predictive_window / cfg.frequency_minutes).toNat

/-- `PredictiveFileClusterStateProvider.get_next_recorded_data` as run by
`SimulatedInMemoryPredictiveClusterStateProvider`: gather the history,
call the inherited file-provider logic, and if prediction is activated
append the forecast (`get_prediction` resamples and runs the
forecasting sub-module, out of the modelled core; the spec treats the
predictive extension as an opaque capability, so it is a parameter
`forecaster`) and keep the last `total_predictive_window /
frequency_minutes` rows.  Activating with no usable history or an absent
window raises (`resample`/`concat` on `None`).  The returned state
records the updated `_prediction_activated` flag; nothing else — in
particular not the trace — changes. -/
def predictiveGetNextRecordedData (cfg : GeneralCfg) (forecaster : List Obs → List Obs)
    (s : SimState) : Except PyErr (Option (List Obs × Int) × SimState) :=
  let data := getAllPerformanceData s
  match fileGetNextRecordedData cfg s with
  | .error e => .error e
  | .ok r =>
      let act := predictionActivatedStep cfg s.prediction_activated_flag data
      let s' := { s with prediction_activated_flag := act }
      if act then
        match data with
        | none => .error .attributeError
        | some d =>
            match r with
            | none => .error .typeError
            | some (w, endT) =>
                .ok (some (tailRows (predictiveTailCount cfg) (w ++ forecaster d), endT), s')
      else .ok (r, s')

/-- `SimulatedBaseClusterStateProvider.set_cpu_limit`: update
`last_scaling_time` when the limit changes (Python `!=`, so a `None`
current limit or a NaN on either side counts as a change), then store. -/
def set_cpu_limit (s : SimState) (newLimit : FVal) : SimState :=
  { s with
    provider_last_scaling_time :=
      if pyNeOpt newLimit s.curr_cpu_limit then s.current_time
      else s.provider_last_scaling_time,
    curr_cpu_limit := some newLimit }

/-- `SimulatedBaseClusterStateProvider.advance_time`:
`current_time += lag` minutes. -/
def advance_time (cfg : GeneralCfg) (s : SimState) : SimState :=
  { s with current_time := s.current_time + cfg.lag * 60 }

/-- `SimulatedBaseClusterStateProvider.flush_metrics_data`: writes the
rows of `recorded_data` as they stand. -/
def flush_metrics_data (s : SimState) : List Obs :=
  s.trace

/-- `(time_now - self.last_scaling_time).seconds` — the `seconds` field
of a Python `timedelta` is the elapsed time modulo 86400 seconds (whole
days are carried into the `days` field), with floor semantics, which is
`Int.emod`. -/
def timedeltaSeconds (delta : Int) : Int :=
  delta % 86400

/-- `SimulatedInfraScaler.scale(new_limit, time_now)`: no-op returning
`False` when `new_limit` equals the current limit or the recovery window
has not passed (strict `>` of the `timedelta.seconds` field over
`recovery_time * 60`); otherwise set the limit (clamped at
`min_cpu_limit` / `max_cpu_limit`), stamp `last_scaling_time` and return
`True`. -/
def scale (cfg : GeneralCfg) (s : SimState) (new_limit : FVal) (time_now : Int) :
    Bool × SimState :=
  if pyNeOpt new_limit s.curr_cpu_limit then
    if (match s.scaler_last_scaling_time with
        | none => true
        | some t => decide (cfg.recovery_time * 60 < timedeltaSeconds (time_now - t))) then
      let s1 :=
        if FVal.pyLt new_limit (.val (cfg.min_cpu_limit : Rat)) then
          set_cpu_limit s (.val (cfg.min_cpu_limit : Rat))
        else if FVal.pyGt new_limit (.val (cfg.max_cpu_limit : Rat)) then
          set_cpu_limit s (.val (cfg.max_cpu_limit : Rat))
        else set_cpu_limit s new_limit
      (true, { s1 with scaler_last_scaling_time := some time_now })
    else (false, s)
  else (false, s)

/-- `InMemoryRunnerSimulator.output_decision` (the `latest_time is not
None` branch; the typed embedding only reaches it with a present
timestamp): append one row to `decisions.csv`. -/
def output_decision (s : SimState) (latestTime : Int) (currLimit : Option FVal)
    (newLimit : Option FVal) : SimState :=
  { s with decision_log := s.decision_log ++ [⟨latestTime, currLimit, newLimit⟩] }

/-- A recommender: `run(window)`, which may raise or return `None`. -/
abbrev Recommender := List Obs → Except PyErr (Option FVal)

/-- `InMemoryRunnerSimulator._execute_simulation_step`: fetch the window
(when it is `None`, just advance time), run the recommender (an
exception propagates — there is no handler in the loop), log the
decision, advance time, and unless the decision is `None` call
`scale(new_limit, provider.current_time)` with the already-advanced
time. -/
def executeSimulationStep (cfg : GeneralCfg) (forecaster : List Obs → List Obs)
    (rec : Recommender) (s : SimState) : Except PyErr SimState :=
  match predictiveGetNextRecordedData cfg forecaster s with
  | .error e => .error e
  | .ok (none, s1) => .ok (advance_time cfg s1)
  | .ok (some (w, latestTime), s1) =>
      match rec w with
      | .error e => .error e
      | .ok newLimit =>
          let s2 := output_decision s1 latestTime s1.curr_cpu_limit newLimit
          let s3 := advance_time cfg s2
          match newLimit with
          | none => .ok s3
          | some nl => .ok (scale cfg s3 nl s3.current_time).2

/-- `InMemoryRunnerSimulator.run_simulation`'s loop: `while current_time
+ lag < end_time: _execute_simulation_step()`.  The loop is embedded
with a fuel parameter; any unhandled exception from a step aborts the
whole run. -/
def runSimulationLoop (cfg : GeneralCfg) (forecaster : List Obs → List Obs)
    (rec : Recommender) : Nat → SimState → Except PyErr SimState
  | 0, s => .ok s
  | fuel + 1, s =>
      if s.current_time + cfg.lag * 60 < s.end_time then
        match executeSimulationStep cfg forecaster rec s with
        | .error e => .error e
        | .ok s' => runSimulationLoop cfg forecaster rec fuel s'
      else .ok s

/- ----------------------------------------------------------------- -/
/- Recommenders (DummyAdditiveRecommender.py,                         -/
/- DummyMultiplierRecommender.py)                                    -/
/- ----------------------------------------------------------------- -/

/-- `Series.max()` / `numpy` max over a column, `none` when empty. -/
def maxColumn : List Rat → Option Rat
  | [] => none
  | x :: xs => some (xs.foldl max x)

/-- The ceiling of a rational, computed as `-⌊-y⌋` with the rational
floor `num / den` (integer division); `ceilInt_eq` below identifies it
with Mathlib's `⌈y⌉`. -/
def ceilInt (y : Rat) : Int :=
  -((-y).num / ((-y).den : Int))

/-- `np.ceil(x * 2) / 2`: round up to the next half step. -/
def halfCeil (x : Rat) : Rat :=
  ((ceilInt (x * 2) : Int) : Rat) / 2

/-- `SimpleAdditiveRecommender.run`: `np.ceil((addend +
recorded_data["cpu"].to_numpy().max()) * 2) / 2`; numpy's `max` of an
empty array raises `ValueError`. -/
def SimpleAdditiveRecommender.run (addend : Rat) : Recommender :=
  fun w =>
    match maxColumn (w.map Obs.cpu) with
    | none => .error .valueError
    | some m => .ok (some (.val (halfCeil (addend + m))))

/-- Arithmetic mean of a list of rationals (only used on non-empty
slices). -/
def meanRat (xs : List Rat) : Rat :=
  xs.sum / (xs.length : Rat)

/-- `Series.rolling(window=sw, min_periods=1).mean()`: entry `i` is the
mean of the up-to-`sw` elements ending at index `i`. -/
def rollingMean (sw : Nat) (xs : List Rat) : List Rat :=
  (List.range xs.length).map (fun i =>
    meanRat ((xs.take (i + 1)).drop (i + 1 - sw)))

/-- `SimpleMultiplierRecommender.calculate_smoothed_max` followed by
`run`: the max of the rolling mean (NaN for an empty window — pandas
`Series.max()` of an empty series — which propagates through
`np.ceil(x*2)/2`), times `multiplier`, rounded up to the half step. -/
def SimpleMultiplierRecommender.run (multiplier : Rat) (smoothing_window : Nat) :
    Recommender :=
  fun w =>
    match maxColumn (rollingMean smoothing_window (w.map Obs.cpu)) with
    | none => .ok (some .nan)
    | some m => .ok (some (.val (halfCeil (multiplier * m))))

/-- `NEW_LIMIT` is an integer multiple of 0.5. -/
def isHalfStep : Option FVal → Prop
  | some (.val q) => ∃ k : Int, q = (k : Rat) / 2
  | _ => False

/-- `SimulatedInMemoryClusterStateProvider.get_next_recorded_data` (the
non-predictive provider): the body is unconditionally
`raise NotImplementedError()`. -/
def nonPredictiveGetNextRecordedData (_s : SimState) :
    Except PyErr (Option (List Obs × Int) × SimState) :=
  .error .notImplementedError

/- ----------------------------------------------------------------- -/
/- Metrics (plot_utils.calculate_metrics)                             -/
/- ----------------------------------------------------------------- -/

/-- `CURR_LIMIT.shift(-1)`: each entry replaced by its successor, the
last by NaN (represented as `none`); empty stays empty. -/
def shiftMinusOne (xs : List Rat) : List (Option Rat) :=
  match xs with
  | [] => []
  | _ :: t => t.map some ++ [none]

/-- pandas `!=` against the shifted column: comparison with the NaN
introduced by `shift(-1)` is `True`. -/
def pandasNeShift (x : Rat) (y : Option Rat) : Bool :=
  match y with
  | none => true
  | some q => x ≠ q

/-- `num_changes = (merged["CURR_LIMIT"] !=
merged["CURR_LIMIT"].shift(-1)).sum()` — the `num_scalings` entry of
`calculate_metrics`, as a function of the aligned `CURR_LIMIT` column. -/
def numScalings (currLimit : List Rat) : Nat :=
  ((currLimit.zip (shiftMinusOne currLimit)).filter (fun p => pandasNeShift p.1 p.2)).length

/-- The quantity the spec describes: the number of adjacent row pairs
whose `curr_limit` values differ. -/
def adjacentDiffCount (currLimit : List Rat) : Nat :=
  ((currLimit.zip currLimit.tail).filter (fun p => decide (p.1 ≠ p.2))).length

/-- Decidable equality on `Except`, so concrete runs can be settled by
`decide`. -/
def Except.decEq {ε α : Type} [DecidableEq ε] [DecidableEq α] :
    DecidableEq (Except ε α)
  | .error a, .error b =>
      if h : a = b then .isTrue (by rw [h]) else .isFalse (by simp [h])
  | .error _, .ok _ => .isFalse (by simp)
  | .ok _, .error _ => .isFalse (by simp)
  | .ok a, .ok b =>
      if h : a = b then .isTrue (by rw [h]) else .isFalse (by simp [h])

instance {ε α : Type} [DecidableEq ε] [DecidableEq α] : DecidableEq (Except ε α) :=
  Except.decEq

/- ----------------------------------------------------------------- -/
/- Concrete inputs used by counterexamples and witnesses              -/
/- ----------------------------------------------------------------- -/

/-- A small validated configuration: 5-minute window, 2-minute lag,
limits `[1, 20]`, 1-minute recovery, prediction far from activating. -/
def cfg1 : GeneralCfg :=
  { window := 5, lag := 2, max_cpu_limit := 20, min_cpu_limit := 1,
    recovery_time := 1, waiting_before_predict := 1000000,
    frequency_minutes := 1, total_predictive_window := 60 }

/-- A provider state whose enforced limit is 10 while the trace holds
observations of 12 CPU inside the lag suffix of the window. -/
def s1 : SimState :=
  { trace := [⟨0, 3⟩, ⟨60, 12⟩, ⟨120, 12⟩, ⟨180, 4⟩],
    start_time := 0, end_time := 600, current_time := 180,
    curr_cpu_limit := some (.val 10),
    provider_last_scaling_time := 0,
    prediction_activated_flag := false,
    scaler_last_scaling_time := none,
    decision_log := [] }

/-- The window `get_next_recorded_data` returns on `s1`. -/
def s1Window : List Obs :=
  [⟨0, 3⟩, ⟨60, 12⟩, ⟨120, 12⟩, ⟨180, 4⟩]

/-- Forecaster stand-in (never reached while prediction is inactive). -/
def noForecast : List Obs → List Obs := fun _ => []

/-- A recommender whose `run` raises. -/
def failingRecommender : Recommender := fun _ => .error .valueError

/-- A scaler/provider state whose last accepted scaling was at time 0. -/
def s2 : SimState :=
  { trace := [⟨0, 3⟩],
    start_time := 0, end_time := 200000, current_time := 86430,
    curr_cpu_limit := some (.val 10),
    provider_last_scaling_time := 0,
    prediction_activated_flag := false,
    scaler_last_scaling_time := some 0,
    decision_log := [] }

/-- A state whose whole (>2 row) window exceeds `max_cpu_limit`, so the
guardrail filter empties it. -/
def s7 : SimState :=
  { trace := [⟨0, 30⟩, ⟨60, 30⟩, ⟨120, 30⟩],
    start_time := 0, end_time := 600, current_time := 120,
    curr_cpu_limit := some (.val 10),
    provider_last_scaling_time := 0,
    prediction_activated_flag := false,
    scaler_last_scaling_time := none,
    decision_log := [] }

/-- The state after one simulation step of the multiplicative
recommender on `s7`: a decision row carrying NaN was appended and the
enforced limit became NaN. -/
def s7After : SimState :=
  { trace := [⟨0, 30⟩, ⟨60, 30⟩, ⟨120, 30⟩],
    start_time := 0, end_time := 600, current_time := 240,
    curr_cpu_limit := some .nan,
    provider_last_scaling_time := 240,
    prediction_activated_flag := false,
    scaler_last_scaling_time := some 240,
    decision_log := [⟨120, some (.val 10), some .nan⟩] }

/-- A configuration whose `recovery_time` is a negative integer and is
otherwise valid. -/
def cfgC8 : Config :=
  { general_config := [("window", .jint 5), ("lag", .jint 5), ("max_cpu_limit", .jint 10),
      ("min_cpu_limit", .jint 1), ("recovery_time", .jint (-5))],
    algo_specific_config := [],
    prediction_config := [("enabled", .jbool false)] }

/-- A configuration file content with only `window` present in
`general_config` and no prediction section. -/
def cfgC9 : Config :=
  { general_config := [("window", .jint 20)],
    algo_specific_config := [("addend", .jint 2)],
    prediction_config := [] }

/-- A configuration with no `prediction_config` content at all —
prediction is absent, hence (per the spec) disabled. -/
def cfgC4 : Config :=
  { general_config := [], algo_specific_config := [], prediction_config := [] }

/-- A fully validated configuration content (fixed point of
validation). -/
def cfgValid : Config :=
  { general_config := [("window", .jint 20), ("lag", .jint 10), ("max_cpu_limit", .jint 14),
      ("min_cpu_limit", .jint 2), ("recovery_time", .jint 15), ("custom_note", .jstr "keep")],
    algo_specific_config := [("addend", .jint 2)],
    prediction_config := [("enabled", .jbool false), ("my_extra", .jint 7)] }

/-- The state after one additive-recommender step on `s1` (window max
12, addend 2, so the decision is 14 and scaling is accepted). -/
def s1AfterAdd : SimState :=
  { trace := [⟨0, 3⟩, ⟨60, 12⟩, ⟨120, 12⟩, ⟨180, 4⟩],
    start_time := 0, end_time := 600, current_time := 300,
    curr_cpu_limit := some (.val 14),
    provider_last_scaling_time := 300,
    prediction_activated_flag := false,
    scaler_last_scaling_time := some 300,
    decision_log := [⟨180, some (.val 10), some (.val 14)⟩] }

/-- The state after one multiplicative-recommender step on `s1`
(smoothed max 9, multiplier 3/2, decision 27/2). -/
def s1AfterMult : SimState :=
  { trace := [⟨0, 3⟩, ⟨60, 12⟩, ⟨120, 12⟩, ⟨180, 4⟩],
    start_time := 0, end_time := 600, current_time := 300,
    curr_cpu_limit := some (.val (27/2 : Rat)),
    provider_last_scaling_time := 300,
    prediction_activated_flag := false,
    scaler_last_scaling_time := some 300,
    decision_log := [⟨180, some (.val 10), some (.val (27/2 : Rat))⟩] }

/-- A key-value section is considered already validated: the four
checked scalars are positive integers, `recovery_time` is present, and
`min_cpu_limit ≤ max_cpu_limit`. -/
def validatedGeneral (g : KVSection) : Bool :=
  hasKey g "recovery_time" &&
  isPosInt ((lookupKey g "window").getD .jnull) &&
  isPosInt ((lookupKey g "lag").getD .jnull) &&
  isPosInt ((lookupKey g "max_cpu_limit").getD .jnull) &&
  isPosInt ((lookupKey g "min_cpu_limit").getD .jnull) &&
  (match asPyInt ((lookupKey g "min_cpu_limit").getD .jnull),
         asPyInt ((lookupKey g "max_cpu_limit").getD .jnull) with
   | some mn, some mx => decide (mn ≤ mx)
   | _, _ => false)

/-- A prediction section is already validated: `enabled` is present
and either truthy with every required prediction key present, or
exactly the stored boolean `false`. -/
def validatedPrediction (p : KVSection) : Bool :=
  match lookupKey p "enabled" with
  | none => false
  | some v =>
      if truthy v then predictionRequiredKeys.all (fun k => hasKey p k)
      else decide (v = .jbool false)

/-- Both sections of a configuration are already validated. -/
def validatedConfig (c : Config) : Bool :=
  validatedGeneral c.general_config && validatedPrediction c.prediction_config

/- ----------------------------------------------------------------- -/
/- Helper lemmas                                                      -/
/- ----------------------------------------------------------------- -/

theorem lookupKey_setKey_self (s : KVSection) (k : String) (v : JVal) :
    lookupKey (setKey s k v) k = some v := by
  induction s with
  | nil => simp [setKey, lookupKey]
  | cons hd tl ih =>
      obtain ⟨k', v'⟩ := hd
      by_cases h : k' = k
      · simp [setKey, lookupKey, h]
      · simp [setKey, lookupKey, h, ih]

theorem lookupKey_setKey_ne (s : KVSection) (k k' : String) (v : JVal) (h : k' ≠ k) :
    lookupKey (setKey s k' v) k = lookupKey s k := by
  induction s with
  | nil => simp [setKey, lookupKey, h]
  | cons hd tl ih =>
      obtain ⟨k0, v0⟩ := hd
      by_cases h0 : k0 = k'
      · simp [setKey, lookupKey, h0, h]
      · by_cases h1 : k0 = k <;> simp [setKey, lookupKey, h0, h1, ih, Ne.symm h]

theorem setKey_eq_of_lookup (s : KVSection) (k : String) (v : JVal)
    (h : lookupKey s k = some v) : setKey s k v = s := by
  induction s with
  | nil => simp [lookupKey] at h
  | cons hd tl ih =>
      obtain ⟨k0, v0⟩ := hd
      by_cases h0 : k0 = k
      · subst h0
        simp [lookupKey] at h
        simp [setKey, h]
      · simp [lookupKey, h0] at h
        simp [setKey, h0, ih h]

theorem setKey_ne_nil (s : KVSection) (k : String) (v : JVal) : setKey s k v ≠ [] := by
  cases s with
  | nil => simp [setKey]
  | cons hd tl =>
      obtain ⟨k0, v0⟩ := hd
      by_cases h : k0 = k <;> simp [setKey, h]

theorem lookup_some_ne_nil (s : KVSection) (k : String) (v : JVal)
    (h : lookupKey s k = some v) : s ≠ [] := by
  intro he; subst he; simp [lookupKey] at h

theorem isPosInt_hasKey (g : KVSection) (k : String)
    (h : isPosInt ((lookupKey g k).getD .jnull) = true) : hasKey g k = true := by
  unfold hasKey
  cases hl : lookupKey g k with
  | none => rw [hl] at h; simp [isPosInt] at h
  | some v => simp

theorem isPosInt_asPyInt (v : JVal) (h : isPosInt v = true) :
    ∃ n : Int, asPyInt v = some n ∧ 0 < n := by
  cases v with
  | jint n => exact ⟨n, rfl, by simpa [isPosInt] using h⟩
  | jbool b =>
      cases b with
      | false => simp [isPosInt] at h
      | true => exact ⟨1, rfl, one_pos⟩
  | jstr s => simp [isPosInt] at h
  | jnull => simp [isPosInt] at h

theorem asPyInt_pos_isPosInt (v : JVal) (n : Int) (h : asPyInt v = some n) (hn : 0 < n) :
    isPosInt v = true := by
  cases v with
  | jint m => simp [asPyInt] at h; subst h; simpa [isPosInt] using hn
  | jbool b =>
      cases b with
      | true => rfl
      | false => simp [asPyInt] at h; omega
  | jstr s => simp [asPyInt] at h
  | jnull => simp [asPyInt] at h

theorem hasKey_setKey (s : KVSection) (k k' : String) (v : JVal)
    (h : hasKey s k = true) : hasKey (setKey s k' v) k = true := by
  by_cases he : k' = k
  · subst he
    unfold hasKey
    rw [lookupKey_setKey_self]
    rfl
  · unfold hasKey at h ⊢
    rw [lookupKey_setKey_ne s k k' v he]
    exact h

theorem foldl_fill_lookup_ne (dflt : String → JVal) :
    ∀ (ks : List String) (acc : KVSection) (k : String), k ∉ ks →
      lookupKey (ks.foldl (fun acc k => if hasKey acc k then acc else setKey acc k (dflt k)) acc) k
        = lookupKey acc k := by
  intro ks
  induction ks with
  | nil => intro acc k _; rfl
  | cons a t ih =>
      intro acc k hk
      simp only [List.mem_cons, not_or] at hk
      rw [List.foldl_cons, ih _ k hk.2]
      by_cases h : hasKey acc a
      · rw [if_pos h]
      · rw [if_neg h, lookupKey_setKey_ne acc k a (dflt a) (fun he => hk.1 (he ▸ rfl))]

theorem foldl_fill_hasKey_mono (dflt : String → JVal) :
    ∀ (ks : List String) (acc : KVSection) (k : String), hasKey acc k = true →
      hasKey (ks.foldl (fun acc k => if hasKey acc k then acc else setKey acc k (dflt k)) acc) k
        = true := by
  intro ks
  induction ks with
  | nil => intro acc k h; exact h
  | cons a t ih =>
      intro acc k h
      rw [List.foldl_cons]
      refine ih _ k ?_
      by_cases ha : hasKey acc a
      · rw [if_pos ha]; exact h
      · rw [if_neg ha]; exact hasKey_setKey acc k a (dflt a) h

theorem foldl_fill_hasKey (dflt : String → JVal) :
    ∀ (ks : List String) (acc : KVSection) (k : String), k ∈ ks →
      hasKey (ks.foldl (fun acc k => if hasKey acc k then acc else setKey acc k (dflt k)) acc) k
        = true := by
  intro ks
  induction ks with
  | nil => intro acc k h; simp at h
  | cons a t ih =>
      intro acc k hk
      rw [List.foldl_cons]
      rcases List.mem_cons.mp hk with he | ht
      · subst he
        refine foldl_fill_hasKey_mono dflt t _ k ?_
        by_cases ha : hasKey acc k
        · rw [if_pos ha]; exact ha
        · rw [if_neg ha]
          unfold hasKey
          rw [lookupKey_setKey_self]
          rfl
      · exact ih _ k ht

theorem foldl_fill_noop (dflt : String → JVal) :
    ∀ (ks : List String) (acc : KVSection), (∀ k ∈ ks, hasKey acc k = true) →
      ks.foldl (fun acc k => if hasKey acc k then acc else setKey acc k (dflt k)) acc = acc := by
  intro ks
  induction ks with
  | nil => intro acc _; rfl
  | cons a t ih =>
      intro acc h
      rw [List.foldl_cons, if_pos (h a (List.mem_cons_self a t))]
      exact ih acc (fun k hk => h k (List.mem_cons_of_mem a hk))

theorem foldl_fill_ne_nil (dflt : String → JVal) :
    ∀ (ks : List String) (acc : KVSection), acc ≠ [] →
      ks.foldl (fun acc k => if hasKey acc k then acc else setKey acc k (dflt k)) acc ≠ [] := by
  intro ks
  induction ks with
  | nil => intro acc h; exact h
  | cons a t ih =>
      intro acc h
      rw [List.foldl_cons]
      refine ih _ ?_
      by_cases ha : hasKey acc a
      · rw [if_pos ha]; exact h
      · rw [if_neg ha]; exact setKey_ne_nil acc a (dflt a)

theorem checkPositiveInteger_self (g : KVSection) (k : String)
    (hd : 0 < generalDefault k) :
    isPosInt ((lookupKey (checkPositiveInteger g k) k).getD .jnull) = true := by
  unfold checkPositiveInteger
  by_cases h : isPosInt ((lookupKey g k).getD .jnull) = true
  · rw [if_pos h]; exact h
  · rw [if_neg h, lookupKey_setKey_self]
    simpa [isPosInt] using hd

theorem checkPositiveInteger_ne (g : KVSection) (k k' : String) (h : k' ≠ k) :
    lookupKey (checkPositiveInteger g k') k = lookupKey g k := by
  unfold checkPositiveInteger
  by_cases hp : isPosInt ((lookupKey g k').getD .jnull) = true
  · rw [if_pos hp]
  · rw [if_neg hp, lookupKey_setKey_ne g k k' _ h]

theorem checkPositiveInteger_noop (g : KVSection) (k : String)
    (h : isPosInt ((lookupKey g k).getD .jnull) = true) :
    checkPositiveInteger g k = g := by
  unfold checkPositiveInteger
  rw [if_pos h]

theorem enforceMinMax_spec (g : KVSection)
    (hmin : isPosInt ((lookupKey g "min_cpu_limit").getD .jnull) = true)
    (hmax : isPosInt ((lookupKey g "max_cpu_limit").getD .jnull) = true) :
    ∃ mn mx : Int,
      asPyInt ((lookupKey (enforceMinMax g) "min_cpu_limit").getD .jnull) = some mn ∧
      asPyInt ((lookupKey (enforceMinMax g) "max_cpu_limit").getD .jnull) = some mx ∧
      0 < mn ∧ 0 < mx ∧ mn ≤ mx := by
  obtain ⟨a, ha, hapos⟩ := isPosInt_asPyInt _ hmin
  obtain ⟨b, hb, hbpos⟩ := isPosInt_asPyInt _ hmax
  unfold enforceMinMax
  rw [ha, hb]
  dsimp only
  by_cases hab : b < a
  · rw [if_pos hab]
    refine ⟨1, 20, ?_, ?_, by norm_num, by norm_num, by norm_num⟩
    · rw [lookupKey_setKey_ne _ _ _ _ (by decide), lookupKey_setKey_self]
      rfl
    · rw [lookupKey_setKey_self]
      rfl
  · rw [if_neg hab]
    exact ⟨a, b, ha, hb, hapos, hbpos, not_lt.mp hab⟩

theorem enforceMinMax_ne (g : KVSection) (k : String)
    (h1 : k ≠ "min_cpu_limit") (h2 : k ≠ "max_cpu_limit") :
    lookupKey (enforceMinMax g) k = lookupKey g k := by
  unfold enforceMinMax
  cases hA : asPyInt ((lookupKey g "min_cpu_limit").getD .jnull) with
  | none => rfl
  | some a =>
      cases hB : asPyInt ((lookupKey g "max_cpu_limit").getD .jnull) with
      | none => rfl
      | some b =>
          dsimp only
          by_cases hab : b < a
          · rw [if_pos hab,
              lookupKey_setKey_ne _ _ _ _ (Ne.symm h2),
              lookupKey_setKey_ne _ _ _ _ (Ne.symm h1)]
          · rw [if_neg hab]

theorem enforceMinMax_noop (g : KVSection) (a b : Int)
    (ha : asPyInt ((lookupKey g "min_cpu_limit").getD .jnull) = some a)
    (hb : asPyInt ((lookupKey g "max_cpu_limit").getD .jnull) = some b)
    (hab : a ≤ b) : enforceMinMax g = g := by
  unfold enforceMinMax
  rw [ha, hb]
  dsimp only
  rw [if_neg (not_lt.mpr hab)]

theorem validate_general_eq (c : Config) :
    (validate_config c).general_config =
      enforceMinMax (checkPositiveInteger (checkPositiveInteger (checkPositiveInteger
        (checkPositiveInteger (fillMissingGeneral c.general_config)
          "window") "lag") "max_cpu_limit") "min_cpu_limit") := by
  unfold validate_config
  rfl

theorem valPred_eq (c : Config) :
    (validate_config c).prediction_config = validatePrediction c.prediction_config := by
  unfold validate_config
  rfl

theorem valAlgo_eq (c : Config) :
    (validate_config c).algo_specific_config = c.algo_specific_config := by
  unfold validate_config
  rfl

theorem validate_config_noop (c : Config) (h : validatedConfig c = true) :
    validate_config c = c := by
  unfold validatedConfig at h
  rw [Bool.and_eq_true] at h
  obtain ⟨hgen, hpred⟩ := h
  unfold validatedGeneral at hgen
  simp only [Bool.and_eq_true] at hgen
  obtain ⟨⟨⟨⟨⟨hR, hW⟩, hL⟩, hM⟩, hm⟩, hmm⟩ := hgen
  have hfill : fillMissingGeneral c.general_config = c.general_config := by
    refine foldl_fill_noop _ _ _ ?_
    intro k hk
    simp only [generalRequiredKeys, List.mem_cons, List.not_mem_nil, or_false] at hk
    rcases hk with rfl | rfl | rfl | rfl | rfl
    · exact isPosInt_hasKey _ _ hW
    · exact isPosInt_hasKey _ _ hL
    · exact isPosInt_hasKey _ _ hM
    · exact isPosInt_hasKey _ _ hm
    · exact hR
  have henf : enforceMinMax c.general_config = c.general_config := by
    cases hA : asPyInt ((lookupKey c.general_config "min_cpu_limit").getD .jnull) with
    | none => rw [hA] at hmm; simp at hmm
    | some a =>
        cases hB : asPyInt ((lookupKey c.general_config "max_cpu_limit").getD .jnull) with
        | none => rw [hA, hB] at hmm; simp at hmm
        | some b =>
            rw [hA, hB] at hmm
            simp only [decide_eq_true_eq] at hmm
            exact enforceMinMax_noop _ a b hA hB hmm
  have hgeq : (validate_config c).general_config = c.general_config := by
    rw [validate_general_eq c, hfill,
      checkPositiveInteger_noop _ _ hW, checkPositiveInteger_noop _ _ hL,
      checkPositiveInteger_noop _ _ hM, checkPositiveInteger_noop _ _ hm, henf]
  have hpeq : (validate_config c).prediction_config = c.prediction_config := by
    rw [valPred_eq]
    unfold validatedPrediction at hpred
    cases hE : lookupKey c.prediction_config "enabled" with
    | none => rw [hE] at hpred; simp at hpred
    | some v =>
        rw [hE] at hpred
        dsimp only at hpred
        unfold validatePrediction
        rw [hE]
        dsimp only
        by_cases ht : truthy v = true
        · rw [if_pos ht] at hpred ⊢
          refine foldl_fill_noop _ _ _ ?_
          intro k hk
          exact List.all_eq_true.mp hpred k hk
        · rw [if_neg ht] at hpred ⊢
          simp only [decide_eq_true_eq] at hpred
          subst hpred
          exact setKey_eq_of_lookup _ _ _ hE
  cases c with
  | mk g a p =>
      have h1 := hgeq
      have h2 := hpeq
      have h3 := valAlgo_eq ⟨g, a, p⟩
      cases hv : validate_config ⟨g, a, p⟩ with
      | mk g' a' p' =>
          rw [hv] at h1 h2 h3
          simp at h1 h2 h3
          rw [h1, h2, h3]

theorem predictiveGetNext_preserves (cfg : GeneralCfg) (fc : List Obs → List Obs)
    (s : SimState) (r : Option (List Obs × Int)) (s' : SimState)
    (h : predictiveGetNextRecordedData cfg fc s = .ok (r, s')) :
    s'.trace = s.trace ∧ s'.decision_log = s.decision_log ∧
    s'.curr_cpu_limit = s.curr_cpu_limit ∧ s'.current_time = s.current_time ∧
    s'.start_time = s.start_time ∧ s'.end_time = s.end_time ∧
    s'.scaler_last_scaling_time = s.scaler_last_scaling_time ∧
    s'.provider_last_scaling_time = s.provider_last_scaling_time := by
  simp only [predictiveGetNextRecordedData] at h
  cases hf : fileGetNextRecordedData cfg s with
  | error e => rw [hf] at h; simp at h
  | ok r0 =>
      rw [hf] at h
      dsimp only at h
      by_cases ha : predictionActivatedStep cfg s.prediction_activated_flag (getAllPerformanceData s) = true
      · rw [if_pos ha] at h
        cases hd : getAllPerformanceData s with
        | none => rw [hd] at h; simp at h
        | some d =>
            rw [hd] at h
            cases r0 with
            | none => simp at h
            | some p =>
                obtain ⟨w0, t0⟩ := p
                simp only [Except.ok.injEq, Prod.mk.injEq] at h
                obtain ⟨h1, h2⟩ := h
                subst h2
                simp
      · rw [if_neg ha] at h
        simp only [Except.ok.injEq, Prod.mk.injEq] at h
        obtain ⟨h1, h2⟩ := h
        subst h2
        simp

theorem scale_preserves (cfg : GeneralCfg) (s : SimState) (v : FVal) (now : Int) :
    ((scale cfg s v now).2).decision_log = s.decision_log ∧
    ((scale cfg s v now).2).trace = s.trace := by
  unfold scale set_cpu_limit
  repeat' split
  all_goals simp

theorem executeStep_append_inversion (cfg : GeneralCfg) (fc : List Obs → List Obs)
    (rec : Recommender) (s s' : SimState)
    (hok : executeSimulationStep cfg fc rec s = .ok s')
    (hgrow : s.decision_log.length < s'.decision_log.length) :
    ∃ w t s1 nl, predictiveGetNextRecordedData cfg fc s = .ok (some (w, t), s1) ∧
      rec w = .ok nl ∧
      s'.decision_log = s.decision_log ++ [⟨t, s1.curr_cpu_limit, nl⟩] := by
  unfold executeSimulationStep at hok
  cases hg : predictiveGetNextRecordedData cfg fc s with
  | error e => rw [hg] at hok; simp at hok
  | ok pr =>
      rw [hg] at hok
      obtain ⟨r0, s1⟩ := pr
      cases r0 with
      | none =>
          dsimp only at hok
          simp only [Except.ok.injEq] at hok
          subst hok
          have hpres := predictiveGetNext_preserves cfg fc s none s1 hg
          simp only [advance_time] at hgrow
          rw [hpres.2.1] at hgrow
          omega
      | some p =>
          obtain ⟨w, t⟩ := p
          dsimp only at hok
          cases hr : rec w with
          | error e => rw [hr] at hok; simp at hok
          | ok nl =>
              rw [hr] at hok
              dsimp only at hok
              have hpres := predictiveGetNext_preserves cfg fc s (some (w, t)) s1 hg
              cases nl with
              | none =>
                  simp only [Except.ok.injEq] at hok
                  subst hok
                  refine ⟨w, t, s1, none, rfl, hr, ?_⟩
                  simp [advance_time, output_decision, hpres.2.1]
              | some v =>
                  simp only [Except.ok.injEq] at hok
                  subst hok
                  refine ⟨w, t, s1, some v, rfl, hr, ?_⟩
                  have hs := scale_preserves cfg
                    (advance_time cfg (output_decision s1 t s1.curr_cpu_limit (some v))) v
                    ((advance_time cfg (output_decision s1 t s1.curr_cpu_limit (some v))).current_time)
                  rw [hs.1]
                  simp [advance_time, output_decision, hpres.2.1]

theorem numScalings_cons (x : Rat) (xs : List Rat) :
    numScalings (x :: xs) = adjacentDiffCount (x :: xs) + 1 := by
  induction xs generalizing x with
  | nil => rfl
  | cons y t ih =>
      have h1 : numScalings (x :: y :: t) =
          numScalings (y :: t) + (if x ≠ y then 1 else 0) := by
        by_cases hxy : x = y <;>
          simp [numScalings, shiftMinusOne, pandasNeShift, List.zip, List.filter_cons, hxy]
      have h2 : adjacentDiffCount (x :: y :: t) =
          adjacentDiffCount (y :: t) + (if x ≠ y then 1 else 0) := by
        by_cases hxy : x = y <;>
          simp [adjacentDiffCount, List.zip, List.filter_cons, hxy]
      rw [h1, h2, ih y]
      omega

theorem pyLt_val (a b : Rat) : FVal.pyLt (.val a) (.val b) = decide (a < b) := rfl

theorem pyGt_val (a b : Rat) : FVal.pyGt (.val a) (.val b) = decide (b < a) := rfl

theorem pyNeOpt_nan (o : Option FVal) : pyNeOpt .nan o = true := by
  cases o with
  | none => rfl
  | some c => cases c <;> rfl

theorem int_emod_le_self (a b : Int) (ha : 0 ≤ a) (hb : 0 < b) : a % b ≤ a := by
  have hdiv : 0 ≤ a / b := Int.ediv_nonneg ha (le_of_lt hb)
  have hmul : 0 ≤ b * (a / b) := mul_nonneg (le_of_lt hb) hdiv
  have := Int.emod_def a b
  omega

theorem maxColumn_of_ne_nil (xs : List Rat) (h : xs ≠ []) : ∃ m, maxColumn xs = some m := by
  cases xs with
  | nil => exact absurd rfl h
  | cons x t => exact ⟨t.foldl max x, rfl⟩

theorem rollingMean_length (sw : Nat) (xs : List Rat) :
    (rollingMean sw xs).length = xs.length := by
  simp [rollingMean]

theorem ceilInt_eq (y : Rat) : ceilInt y = ⌈y⌉ := by
  conv_rhs => rw [← neg_neg y]
  rw [Int.ceil_neg, Rat.floor_def]
  rfl

theorem halfCeil_eq (x : Rat) : halfCeil x = ((⌈x * 2⌉ : Int) : Rat) / 2 := by
  unfold halfCeil
  rw [ceilInt_eq]

/- ----------------------------------------------------------------- -/
/- Claim theorems                                                     -/
/- ----------------------------------------------------------------- -/

/-- C1, counterexample: the claim says any observation in
`[current_time − lag, current_time]` with `cpu` above the enforced limit
is overwritten in place with the limit before the window is returned.
On `s1` (limit 10) the call succeeds, yet the observation at time 120
(inside the lag sub-range, `cpu = 12 > 10`) still stands at 12 in the
returned state's trace and in `flush_metrics_data`; no observation was
clamped to 10. -/
theorem c1_counterexample :
    predictiveGetNextRecordedData cfg1 noForecast s1 = .ok (some (s1Window, 180), s1) ∧
    s1.curr_cpu_limit = some (.val 10) ∧
    s1.current_time - cfg1.lag * 60 ≤ 120 ∧ (120 : Int) ≤ s1.current_time ∧
    (10 : Rat) < 12 ∧
    Obs.mk 120 12 ∈ flush_metrics_data s1 ∧
    ¬ Obs.mk 120 10 ∈ flush_metrics_data s1 := by decide

/-- C1, amended: the provider in the `vasim` package performs no
clamping at all — `get_next_recorded_data` never modifies the stored
trace, so every recorded `cpu` value (also those above the enforced
limit) is unchanged for all subsequent reads and for the trace written
by `flush_metrics_data`.  (An in-place clamp exists only in the
historical root-level copies
`simulator/SimulatedInMemoryClusterStateProvider.py` and
`simulator/SimulatedInMemoryPredictiveClusterStateProvider.py`, which
the simulator does not import.) -/
theorem c1_no_clamping (cfg : GeneralCfg) (fc : List Obs → List Obs) (s : SimState)
    (r : Option (List Obs × Int)) (s' : SimState)
    (h : predictiveGetNextRecordedData cfg fc s = .ok (r, s')) :
    s'.trace = s.trace ∧ flush_metrics_data s' = flush_metrics_data s := by
  have hp := predictiveGetNext_preserves cfg fc s r s' h
  exact ⟨hp.1, hp.1⟩

/-- C1, witness: the amended theorem applied to the concrete state
`s1`. -/
theorem c1_no_clamping_witness :
    s1.trace = s1.trace ∧ flush_metrics_data s1 = flush_metrics_data s1 :=
  c1_no_clamping cfg1 noForecast s1 (some (s1Window, 180)) s1 (by decide)

/-- C2, counterexample: the claim says a scaling attempt is accepted
whenever the new limit differs and the elapsed seconds since the last
accepted scaling exceed `recovery_time * 60`.  With the last scaling at
time 0 and `now = 86430` (one day and 30 seconds later), elapsed
seconds `86430 > 60`, yet `scale` returns `false` and changes nothing,
because Python's `timedelta.seconds` drops the whole day and compares
only the 30-second remainder. -/
theorem c2_counterexample :
    s2.scaler_last_scaling_time = some 0 ∧
    pyNeOpt (.val 5) s2.curr_cpu_limit = true ∧
    cfg1.recovery_time * 60 < 86430 - 0 ∧
    scale cfg1 s2 (.val 5) 86430 = (false, s2) := by decide

/-- C2, amended: `scale(new_limit, now)` returns `false` and leaves the
state (enforced limit and cooldown anchor) untouched when the new limit
equals the current one (Python `!=`, so NaN always counts as different),
or when the `timedelta.seconds` field of the elapsed time since the last
accepted scaling — the elapsed seconds modulo 86400, whole days
dropped — is not strictly greater than `recovery_time * 60`.  Otherwise
the call is accepted, the cooldown anchor is stamped with `now`, and it
returns `true`: a non-NaN `new_limit` is stored clamped into
`[min_cpu_limit, max_cpu_limit]`, while a NaN `new_limit` (reachable
from the multiplicative recommender on an emptied window) passes both
clamp checks — `NaN < min` and `NaN > max` are `False` — and is stored
unclamped as the enforced limit.  Hence `min_cpu_limit ≤
curr_cpu_limit ≤ max_cpu_limit` holds after every accepted non-NaN
scaling but not after a NaN one, and (time being monotone) two accepted
scalings are always more than `recovery_time * 60` seconds apart. -/
theorem c2_scale_semantics (cfg : GeneralCfg) (s : SimState) (v : FVal) (now : Int)
    (hminmax : cfg.min_cpu_limit ≤ cfg.max_cpu_limit) :
    (pyNeOpt v s.curr_cpu_limit = false → scale cfg s v now = (false, s)) ∧
    (∀ t, s.scaler_last_scaling_time = some t →
      timedeltaSeconds (now - t) ≤ cfg.recovery_time * 60 →
      scale cfg s v now = (false, s)) ∧
    (∀ q, v = .val q → pyNeOpt v s.curr_cpu_limit = true →
      (s.scaler_last_scaling_time = none ∨
        ∃ t, s.scaler_last_scaling_time = some t ∧
          cfg.recovery_time * 60 < timedeltaSeconds (now - t)) →
      scale cfg s v now =
        (true,
          { set_cpu_limit s
              (.val (max (cfg.min_cpu_limit : Rat) (min (cfg.max_cpu_limit : Rat) q))) with
            scaler_last_scaling_time := some now }) ∧
      (cfg.min_cpu_limit : Rat) ≤ max (cfg.min_cpu_limit : Rat) (min (cfg.max_cpu_limit : Rat) q) ∧
      max (cfg.min_cpu_limit : Rat) (min (cfg.max_cpu_limit : Rat) q) ≤ (cfg.max_cpu_limit : Rat)) ∧
    (v = .nan →
      (s.scaler_last_scaling_time = none ∨
        ∃ t, s.scaler_last_scaling_time = some t ∧
          cfg.recovery_time * 60 < timedeltaSeconds (now - t)) →
      scale cfg s v now =
        (true, { set_cpu_limit s .nan with scaler_last_scaling_time := some now })) ∧
    (∀ t, s.scaler_last_scaling_time = some t → 0 ≤ now - t →
      (scale cfg s v now).1 = true → cfg.recovery_time * 60 < now - t) := by
  have hc : ((cfg.min_cpu_limit : Int) : Rat) ≤ ((cfg.max_cpu_limit : Int) : Rat) := by
    exact_mod_cast hminmax
  refine ⟨?_, ?_, ?_, ?_, ?_⟩
  · intro hne
    unfold scale
    rw [hne]
    simp
  · intro t ht hle
    unfold scale
    rw [ht]
    have hd : decide (cfg.recovery_time * 60 < timedeltaSeconds (now - t)) = false :=
      decide_eq_false (not_lt.mpr hle)
    by_cases hne : pyNeOpt v s.curr_cpu_limit = true
    · simp [hne, hd]
    · simp only [Bool.not_eq_true] at hne
      simp [hne]
  · intro q hq hne hcool
    subst hq
    unfold scale
    rw [hne]
    have hcb : (match s.scaler_last_scaling_time with
        | none => true
        | some t => decide (cfg.recovery_time * 60 < timedeltaSeconds (now - t))) = true := by
      rcases hcool with h0 | ⟨t, ht, hlt⟩
      · rw [h0]
      · rw [ht]; simpa using hlt
    rw [hcb]
    simp only [if_true, pyLt_val, pyGt_val]
    constructor
    · by_cases h1 : q < (cfg.min_cpu_limit : Rat)
      · rw [if_pos (by simpa using h1)]
        have heq : (max (cfg.min_cpu_limit : Rat) (min (cfg.max_cpu_limit : Rat) q))
            = (cfg.min_cpu_limit : Rat) := by
          rw [min_eq_right (le_of_lt (lt_of_lt_of_le h1 hc)), max_eq_left (le_of_lt h1)]
        rw [heq]
      · rw [if_neg (by simpa using h1)]
        by_cases h2 : (cfg.max_cpu_limit : Rat) < q
        · rw [if_pos (by simpa using h2)]
          have heq : (max (cfg.min_cpu_limit : Rat) (min (cfg.max_cpu_limit : Rat) q))
              = (cfg.max_cpu_limit : Rat) := by
            rw [min_eq_left (le_of_lt h2), max_eq_right hc]
          rw [heq]
        · rw [if_neg (by simpa using h2)]
          have heq : (max (cfg.min_cpu_limit : Rat) (min (cfg.max_cpu_limit : Rat) q)) = q := by
            rw [min_eq_right (not_lt.mp h2), max_eq_right (not_lt.mp h1)]
          rw [heq]
    · exact ⟨le_max_left _ _, max_le hc (min_le_left _ _)⟩
  · intro hq hcool
    subst hq
    unfold scale
    rw [pyNeOpt_nan]
    have hcb : (match s.scaler_last_scaling_time with
        | none => true
        | some t => decide (cfg.recovery_time * 60 < timedeltaSeconds (now - t))) = true := by
      rcases hcool with h0 | ⟨t, ht, hlt⟩
      · rw [h0]
      · rw [ht]; simpa using hlt
    rw [hcb]
    rfl
  · intro t ht hnn htrue
    unfold scale at htrue
    rw [ht] at htrue
    by_cases hcd : cfg.recovery_time * 60 < timedeltaSeconds (now - t)
    · have hle2 : timedeltaSeconds (now - t) ≤ now - t := by
        unfold timedeltaSeconds
        exact int_emod_le_self _ _ hnn (by norm_num)
      omega
    · by_cases hne : pyNeOpt v s.curr_cpu_limit = true
      · simp [hne, decide_eq_false hcd] at htrue
      · simp only [Bool.not_eq_true] at hne
        simp [hne] at htrue

/-- C2, witness: the amended theorem at concrete states — the no-op
branch where the limit already equals the request, and the NaN
acceptance branch on `s1` (no prior scaling), which stores the NaN
unclamped and stamps the cooldown anchor. -/
theorem c2_scale_semantics_witness :
    scale cfg1 s2 (.val 10) 100 = (false, s2) ∧
    scale cfg1 s1 .nan 300 =
      (true, { set_cpu_limit s1 .nan with scaler_last_scaling_time := some 300 }) :=
  ⟨(c2_scale_semantics cfg1 s2 (.val 10) 100 (by decide)).1 (by decide),
   (c2_scale_semantics cfg1 s1 .nan 300 (by decide)).2.2.2.1 rfl (Or.inl (by decide))⟩

/-- C3, counterexample: the claim says a recommender exception is
logged, the step becomes a no-decision, time still advances and the
loop continues.  On `s1` (a state with a valid window and the loop
guard satisfied) a raising recommender makes `_execute_simulation_step`
— and hence the whole `run_simulation` loop — propagate the exception:
no advanced-time state is produced and the run aborts. -/
theorem c3_counterexample :
    executeSimulationStep cfg1 noForecast failingRecommender s1 = .error .valueError ∧
    s1.current_time + cfg1.lag * 60 < s1.end_time ∧
    runSimulationLoop cfg1 noForecast failingRecommender 2 s1 = .error .valueError := by
  decide

/-- C3, amended: an exception raised by `recommender.run` propagates out
of `_execute_simulation_step` unhandled — the step produces no decision
row, does not advance time, and the `run_simulation` loop aborts with
that exception.  (Only the tuning orchestrator catches failures, per
worker.) -/
theorem c3_exception_propagates (cfg : GeneralCfg) (fc : List Obs → List Obs)
    (rec : Recommender) (s s1 : SimState) (w : List Obs) (t : Int) (e : PyErr)
    (hwin : predictiveGetNextRecordedData cfg fc s = .ok (some (w, t), s1))
    (herr : rec w = .error e) :
    executeSimulationStep cfg fc rec s = .error e ∧
    (∀ fuel, s.current_time + cfg.lag * 60 < s.end_time →
      runSimulationLoop cfg fc rec (fuel + 1) s = .error e) := by
  have hstep : executeSimulationStep cfg fc rec s = .error e := by
    unfold executeSimulationStep
    rw [hwin]
    dsimp only
    rw [herr]
  refine ⟨hstep, ?_⟩
  intro fuel hcond
  unfold runSimulationLoop
  rw [if_pos hcond, hstep]

/-- C3, witness: the amended theorem at the concrete state `s1` with the
always-raising recommender. -/
theorem c3_exception_propagates_witness :
    executeSimulationStep cfg1 noForecast failingRecommender s1 = .error PyErr.valueError ∧
    (∀ fuel, s1.current_time + cfg1.lag * 60 < s1.end_time →
      runSimulationLoop cfg1 noForecast failingRecommender (fuel + 1) s1
        = .error PyErr.valueError) :=
  c3_exception_propagates cfg1 noForecast failingRecommender s1 s1 s1Window 180
    PyErr.valueError (by decide) (by decide)

/-- C4, counterexample: the claim says that with `enabled` absent or
false the non-predictive provider is constructed.  Loading a
configuration with no prediction section leaves `enabled = false` after
validation, yet the simulator constructs the predictive provider: the
factory's `predictive` argument receives the whole `prediction_config`
mapping, and validation always makes that mapping non-empty (hence
truthy). -/
theorem c4_counterexample :
    lookupKey (ClusterStateConfig.init cfgC4).prediction_config "enabled"
      = some (.jbool false) ∧
    simulatorCreateProvider (ClusterStateConfig.init cfgC4) = .predictive := by decide

/-- C4, amended: `_create_cluster_state_provider` passes
`predictive=config.prediction_config` (the mapping itself, not its
`enabled` entry); after validation the mapping always contains at least
the `enabled` key, so it is truthy and the predictive provider is
constructed for every validated configuration, regardless of the value
of `enabled`. -/
theorem c4_always_predictive (d : Config) :
    simulatorCreateProvider (ClusterStateConfig.init d) = .predictive := by
  have hne : (ClusterStateConfig.init d).prediction_config ≠ [] := by
    unfold ClusterStateConfig.init
    rw [valPred_eq]
    unfold validatePrediction
    by_cases ht : (match lookupKey d.prediction_config "enabled" with
        | some v => truthy v
        | none => false) = true
    · rw [if_pos ht]
      refine foldl_fill_ne_nil _ _ _ ?_
      cases hE : lookupKey d.prediction_config "enabled" with
      | none => rw [hE] at ht; simp at ht
      | some v => exact lookup_some_ne_nil _ _ _ hE
    · rw [if_neg ht]
      exact setKey_ne_nil _ _ _
  unfold simulatorCreateProvider create_provider truthyDict
  rw [if_pos ?_]
  cases hp : (ClusterStateConfig.init d).prediction_config with
  | nil => exact absurd hp hne
  | cons a l => rfl

/-- C5: `SimulatedInMemoryClusterStateProvider.get_next_recorded_data`
raises `NotImplementedError` for every state — it never returns a
window — and this class is exactly what the factory builds on the
non-predictive path, so the window-extraction contract is implemented
only by the predictive provider. -/
theorem c5_not_implemented :
    (∀ s, nonPredictiveGetNextRecordedData s = .error .notImplementedError) ∧
    create_provider false = .nonPredictive :=
  ⟨fun _ => rfl, rfl⟩

/-- C6, counterexample: the claim says `num_scalings` equals the number
of adjacent row pairs whose `curr_limit` differs.  On a one-row table
there are no adjacent pairs, yet the code counts 1: `shift(-1)` puts
NaN after the last row and the `!=` comparison against NaN is always
`True`. -/
theorem c6_counterexample :
    numScalings [5] = 1 ∧ adjacentDiffCount [5] = 0 ∧
    numScalings [5] ≠ adjacentDiffCount [5] := by decide

/-- C6, amended: for every non-empty aligned table, the `num_scalings`
metric equals the count of consecutive-row differences in `CURR_LIMIT`
plus one — the extra 1 coming from the last row, which `shift(-1)`
pairs with NaN. -/
theorem c6_num_scalings (xs : List Rat) (h : xs ≠ []) :
    numScalings xs = adjacentDiffCount xs + 1 := by
  cases xs with
  | nil => exact absurd rfl h
  | cons x t => exact numScalings_cons x t

/-- C6, witness: the amended theorem applied to `[1, 2]`. -/
theorem c6_num_scalings_witness :
    numScalings [1, 2] = adjacentDiffCount [1, 2] + 1 :=
  c6_num_scalings [1, 2] (by decide)

/-- C7, counterexample: the claim says every `NEW_LIMIT` written to the
decision log is an integer multiple of 0.5.  On `s7` the window has
more than 2 observations, all above `max_cpu_limit`, so the guardrail
filter empties the frame handed to the recommender; the multiplicative
recommender's smoothed max over the empty frame is NaN, and the step
appends a decision row whose `NEW_LIMIT` is NaN — not a multiple of
0.5. -/
theorem c7_counterexample :
    executeSimulationStep cfg1 noForecast (SimpleMultiplierRecommender.run (3/2) 5) s7
      = .ok s7After ∧
    s7After.decision_log = [⟨120, some (.val 10), some .nan⟩] ∧
    ¬ isHalfStep (some FVal.nan) :=
  ⟨by decide, by decide, fun h => h⟩

/-- C7, amended: whenever a simulation step running a built-in
recommender appends a decision row and the window handed to the
recommender is non-empty, the appended `NEW_LIMIT` is an integer
multiple of 0.5 (`ceil(x*2)/2`).  For the additive recommender the
non-emptiness is automatic — numpy's `max` raises on an empty array, so
no row is appended; the multiplicative recommender needs the window
non-empty to avoid the NaN corner (and its pandas rolling window must
be positive). -/
theorem c7_quantization :
    (∀ cfg fc (addend : Rat) (s s' : SimState),
        executeSimulationStep cfg fc (SimpleAdditiveRecommender.run addend) s = .ok s' →
        s.decision_log.length < s'.decision_log.length →
        ∃ row, s'.decision_log.getLast? = some row ∧ isHalfStep row.new_limit) ∧
    (∀ cfg fc (multiplier : Rat) (sw : Nat) (s s' s1 : SimState) (w : List Obs) (t : Int),
        1 ≤ sw →
        predictiveGetNextRecordedData cfg fc s = .ok (some (w, t), s1) →
        w ≠ [] →
        executeSimulationStep cfg fc (SimpleMultiplierRecommender.run multiplier sw) s
          = .ok s' →
        ∃ row, s'.decision_log.getLast? = some row ∧ isHalfStep row.new_limit) := by
  constructor
  · intro cfg fc addend s s' hok hgrow
    obtain ⟨w, t, s1, nl, hg, hr, hlog⟩ :=
      executeStep_append_inversion cfg fc _ s s' hok hgrow
    unfold SimpleAdditiveRecommender.run at hr
    cases hm : maxColumn (w.map Obs.cpu) with
    | none => rw [hm] at hr; simp at hr
    | some m =>
        rw [hm] at hr
        simp only [Except.ok.injEq] at hr
        refine ⟨⟨t, s1.curr_cpu_limit, nl⟩, ?_, ?_⟩
        · rw [hlog]
          simp
        · rw [← hr]
          exact ⟨ceilInt ((addend + m) * 2), rfl⟩
  · intro cfg fc multiplier sw s s' s1 w t _hsw hg hw hok
    have hrm : rollingMean sw (w.map Obs.cpu) ≠ [] := by
      intro hnil
      have hle := rollingMean_length sw (w.map Obs.cpu)
      rw [hnil] at hle
      simp at hle
      exact hw (List.length_eq_zero.mp hle.symm)
    obtain ⟨m, hm⟩ := maxColumn_of_ne_nil _ hrm
    have hr : SimpleMultiplierRecommender.run multiplier sw w
        = .ok (some (.val (halfCeil (multiplier * m)))) := by
      unfold SimpleMultiplierRecommender.run
      rw [hm]
    unfold executeSimulationStep at hok
    rw [hg] at hok
    dsimp only at hok
    rw [hr] at hok
    dsimp only at hok
    simp only [Except.ok.injEq] at hok
    subst hok
    refine ⟨⟨t, s1.curr_cpu_limit, some (.val (halfCeil (multiplier * m)))⟩, ?_, ?_⟩
    · rw [(scale_preserves cfg _ _ _).1]
      simp [advance_time, output_decision]
    · exact ⟨ceilInt (multiplier * m * 2), rfl⟩

/-- C7, witness: both parts of the amended theorem at the concrete state
`s1` — the additive step writes 14, the multiplicative step writes
27/2, both half-integer. -/
theorem c7_quantization_witness :
    (∃ row, s1AfterAdd.decision_log.getLast? = some row ∧ isHalfStep row.new_limit) ∧
    (∃ row, s1AfterMult.decision_log.getLast? = some row ∧ isHalfStep row.new_limit) :=
  ⟨c7_quantization.1 cfg1 noForecast 2 s1 s1AfterAdd (by decide) (by decide),
   c7_quantization.2 cfg1 noForecast (3/2) 5 s1 s1AfterMult s1 s1Window 180
     (by decide) (by decide) (by decide) (by decide)⟩

/-- C8, counterexample: the claim says every required general key that
is not a positive integer is replaced by its default.  A configuration
whose `recovery_time` is `-5` passes validation unchanged — the
positive-integer check is applied to `window`, `lag`, `max_cpu_limit`
and `min_cpu_limit`, but not to `recovery_time`. -/
theorem c8_counterexample :
    lookupKey (validate_config cfgC8).general_config "recovery_time"
      = some (.jint (-5)) ∧
    isPosInt (.jint (-5)) = false := by decide

/-- C8, amended: validation soft-fails (filling the default, raising no
error) for a missing required general key, and replaces non-positive
or non-integer values for `window`, `lag`, `max_cpu_limit` and
`min_cpu_limit` — but `recovery_time` is only defaulted when missing,
not value-checked.  After validation the four checked keys hold
positive integers, `recovery_time` is present, and
`min_cpu_limit ≤ max_cpu_limit` (both reset to defaults on violation),
so the run proceeds. -/
theorem c8_validation_soft (c : Config) :
    isPosInt ((lookupKey (validate_config c).general_config "window").getD .jnull) = true ∧
    isPosInt ((lookupKey (validate_config c).general_config "lag").getD .jnull) = true ∧
    isPosInt ((lookupKey (validate_config c).general_config "max_cpu_limit").getD .jnull)
      = true ∧
    isPosInt ((lookupKey (validate_config c).general_config "min_cpu_limit").getD .jnull)
      = true ∧
    hasKey (validate_config c).general_config "recovery_time" = true ∧
    ∃ mn mx : Int,
      asPyInt ((lookupKey (validate_config c).general_config "min_cpu_limit").getD .jnull)
        = some mn ∧
      asPyInt ((lookupKey (validate_config c).general_config "max_cpu_limit").getD .jnull)
        = some mx ∧
      0 < mn ∧ 0 < mx ∧ mn ≤ mx := by
  have hG := validate_general_eq c
  set g0 := fillMissingGeneral c.general_config with hg0
  set g1 := checkPositiveInteger g0 "window" with hg1
  set g2 := checkPositiveInteger g1 "lag" with hg2
  set g3 := checkPositiveInteger g2 "max_cpu_limit" with hg3
  set g4 := checkPositiveInteger g3 "min_cpu_limit" with hg4
  have hW : isPosInt ((lookupKey g4 "window").getD .jnull) = true := by
    rw [hg4, checkPositiveInteger_ne _ _ _ (by decide),
        hg3, checkPositiveInteger_ne _ _ _ (by decide),
        hg2, checkPositiveInteger_ne _ _ _ (by decide)]
    exact checkPositiveInteger_self g0 "window" (by norm_num [generalDefault])
  have hL : isPosInt ((lookupKey g4 "lag").getD .jnull) = true := by
    rw [hg4, checkPositiveInteger_ne _ _ _ (by decide),
        hg3, checkPositiveInteger_ne _ _ _ (by decide)]
    exact checkPositiveInteger_self g1 "lag" (by norm_num [generalDefault])
  have hM : isPosInt ((lookupKey g4 "max_cpu_limit").getD .jnull) = true := by
    rw [hg4, checkPositiveInteger_ne _ _ _ (by decide)]
    exact checkPositiveInteger_self g2 "max_cpu_limit" (by norm_num [generalDefault])
  have hm : isPosInt ((lookupKey g4 "min_cpu_limit").getD .jnull) = true :=
    checkPositiveInteger_self g3 "min_cpu_limit" (by norm_num [generalDefault])
  have hR : hasKey g4 "recovery_time" = true := by
    unfold hasKey
    rw [hg4, checkPositiveInteger_ne _ _ _ (by decide),
        hg3, checkPositiveInteger_ne _ _ _ (by decide),
        hg2, checkPositiveInteger_ne _ _ _ (by decide),
        hg1, checkPositiveInteger_ne _ _ _ (by decide)]
    exact foldl_fill_hasKey _ _ _ _ (by decide)
  obtain ⟨mn, mx, hmn, hmx, hmnp, hmxp, hle⟩ := enforceMinMax_spec g4 hm hM
  have hWf : isPosInt ((lookupKey (enforceMinMax g4) "window").getD .jnull) = true := by
    rw [enforceMinMax_ne _ _ (by decide) (by decide)]; exact hW
  have hLf : isPosInt ((lookupKey (enforceMinMax g4) "lag").getD .jnull) = true := by
    rw [enforceMinMax_ne _ _ (by decide) (by decide)]; exact hL
  have hMf : isPosInt ((lookupKey (enforceMinMax g4) "max_cpu_limit").getD .jnull) = true :=
    asPyInt_pos_isPosInt _ _ hmx hmxp
  have hmf : isPosInt ((lookupKey (enforceMinMax g4) "min_cpu_limit").getD .jnull) = true :=
    asPyInt_pos_isPosInt _ _ hmn hmnp
  have hRf : hasKey (enforceMinMax g4) "recovery_time" = true := by
    unfold hasKey
    rw [enforceMinMax_ne _ _ (by decide) (by decide)]
    exact hR
  rw [hG]
  exact ⟨hWf, hLf, hMf, hmf, hRf, mn, mx, hmn, hmx, hmnp, hmxp, hle⟩

/-- C9, counterexample: the claim says `to_file(load_from_file(p))`
reproduces the original content of the three sections.  Loading runs
validation in the constructor, so a file whose `general_config` holds
only `window` is written back with all five required keys and a forced
`prediction_config.enabled = false` — not the original content. -/
theorem c9_counterexample :
    roundTrip cfgC9 ≠ cfgC9 ∧
    (roundTrip cfgC9).general_config ≠ cfgC9.general_config := by decide

/-- C9, amended: the round-trip writes back the validated original:
unknown keys of all three sections are preserved (the
`algo_specific_config` section verbatim), and a file that is already
validated — required keys present with valid values,
`min_cpu_limit ≤ max_cpu_limit`, `enabled` present and consistent —
round-trips to exactly its original content. -/
theorem c9_round_trip_validated :
    (∀ d, validatedConfig d = true → roundTrip d = d) ∧
    (∀ d k, k ∉ generalRequiredKeys →
      lookupKey (roundTrip d).general_config k = lookupKey d.general_config k) ∧
    (∀ d, (roundTrip d).algo_specific_config = d.algo_specific_config) ∧
    (∀ d k, k ∉ ("enabled" :: predictionRequiredKeys) →
      lookupKey (roundTrip d).prediction_config k = lookupKey d.prediction_config k) := by
  have hto : ∀ c : Config, to_json c = c := by intro c; cases c; rfl
  refine ⟨?_, ?_, ?_, ?_⟩
  · intro d hd
    unfold roundTrip ClusterStateConfig.init
    rw [hto, validate_config_noop d hd]
  · intro d k hk
    simp only [generalRequiredKeys, List.mem_cons, List.not_mem_nil, or_false, not_or] at hk
    obtain ⟨hw, hl, hM, hm, hr⟩ := hk
    unfold roundTrip ClusterStateConfig.init
    rw [hto, validate_general_eq d,
      enforceMinMax_ne _ _ hm hM,
      checkPositiveInteger_ne _ _ _ (Ne.symm hm),
      checkPositiveInteger_ne _ _ _ (Ne.symm hM),
      checkPositiveInteger_ne _ _ _ (Ne.symm hl),
      checkPositiveInteger_ne _ _ _ (Ne.symm hw)]
    refine foldl_fill_lookup_ne _ _ _ _ ?_
    simp [generalRequiredKeys, hw, hl, hM, hm, hr]
  · intro d
    unfold roundTrip ClusterStateConfig.init
    rw [hto, valAlgo_eq]
  · intro d k hk
    simp only [List.mem_cons, not_or] at hk
    obtain ⟨he, hrest⟩ := hk
    unfold roundTrip ClusterStateConfig.init
    rw [hto, valPred_eq]
    unfold validatePrediction
    by_cases ht : (match lookupKey d.prediction_config "enabled" with
        | some v => truthy v
        | none => false) = true
    · rw [if_pos ht]
      exact foldl_fill_lookup_ne _ _ _ _ hrest
    · rw [if_neg ht]
      exact lookupKey_setKey_ne _ _ _ _ (Ne.symm he)

/-- C9, witness: the identity round-trip of the amended theorem on the
concrete already-validated configuration `cfgValid` (which carries
unknown keys in two sections). -/
theorem c9_round_trip_validated_witness :
    roundTrip cfgValid = cfgValid :=
  c9_round_trip_validated.1 cfgValid (by decide)

/-- C10: when the truncated frame holds more than 2 observations and a
current CPU limit is available, `get_next_recorded_data` returns the
frame with every observation whose `cpu` exceeds
`general_config["max_cpu_limit"]` silently dropped — such observations
are absent from the returned window (so they never reach the
recommender) while the stored trace is left unchanged by the call. -/
theorem c10_overlimit_filtered (cfg : GeneralCfg) (fc : List Obs → List Obs)
    (s : SimState) (w : List Obs) (endT : Int)
    (htr : truncatedWindow cfg s = .ok (some (w, endT)))
    (hlen : 2 < w.length)
    (hsome : s.curr_cpu_limit.isSome = true) :
    fileGetNextRecordedData cfg s =
      .ok (some (w.filter (fun o => o.cpu ≤ (cfg.max_cpu_limit : Rat)), endT)) ∧
    (∀ o ∈ w, (cfg.max_cpu_limit : Rat) < o.cpu →
      o ∉ w.filter (fun o => o.cpu ≤ (cfg.max_cpu_limit : Rat))) ∧
    (∀ r s', predictiveGetNextRecordedData cfg fc s = .ok (r, s') → s'.trace = s.trace) := by
  refine ⟨?_, ?_, ?_⟩
  · unfold fileGetNextRecordedData
    rw [htr]
    have hne : w.isEmpty = false := by
      cases w with
      | nil => simp at hlen
      | cons a l => rfl
    dsimp only
    have h2 : ¬ w.length < 2 := by omega
    rw [if_neg (by simp [hne]), if_neg h2, if_pos hlen]
    cases hc : s.curr_cpu_limit with
    | none => rw [hc] at hsome; simp at hsome
    | some c => rfl
  · intro o hmem hgt
    simp only [List.mem_filter]
    intro ⟨_, hle⟩
    simp at hle
    exact absurd hle (not_le.mpr hgt)
  · intro r s' h
    exact (predictiveGetNext_preserves cfg fc s r s' h).1

/-- C10, witness: the theorem at the concrete state `s1`, whose four-row
window passes the `> 2` guardrail (all rows are within the limit, so
the filter keeps them). -/
theorem c10_overlimit_filtered_witness :
    fileGetNextRecordedData cfg1 s1 =
      .ok (some (s1Window.filter (fun o => o.cpu ≤ (cfg1.max_cpu_limit : Rat)), 180)) :=
  (c10_overlimit_filtered cfg1 noForecast s1 s1Window 180
    (by decide) (by decide) (by decide)).1

end VASim
